import Mathlib

/-!
Verification of the IP-information cache in `netmonitor` (`netmonitor/core.py`).

The Python code is shallowly embedded: the cache dictionary `_cache_dict`
becomes an insertion-ordered association list, Python tuple/list values
become the inductive `PyVal` (Python distinguishes `("a", "b")` from
`["a", "b"]` under `==`, and `json.load` always produces lists), and the
network / filesystem interactions are passed in explicitly as outcome
values, so every operation is a pure function whose resolver calls are
recorded in the result.
-/

namespace Netmonitor

/-- A Python value stored in `_cache_dict`: either a two-element tuple
`(org, country)` (written by `IpInfoCache.get_ip_infos`) or a two-element
list `[org, country]` (produced by `json.load` in `load_from_json`).
Python `==` distinguishes the two, which `DecidableEq` mirrors. -/
inductive PyVal where
  | tuple2 (org country : Option String)
  | list2 (org country : Option String)
deriving DecidableEq

/-- Destructuring `org, country = v`, which succeeds for both a two-element
tuple and a two-element list. -/
def PyVal.contents : PyVal → Option String × Option String
  | .tuple2 o c => (o, c)
  | .list2 o c => (o, c)

/-- Lookup `d[key]` / `key in d` in a Python dict modelled as an
insertion-ordered association list (keys unique in every reachable state). -/
def dictGet {α : Type} : List (String × α) → String → Option α
  | [], _ => none
  | (k, v) :: rest, key => if k = key then some v else dictGet rest key

/-- Assignment `d[key] = v` on a Python dict: replaces the value in place if
the key is present, otherwise appends the binding at the end. -/
def dictSet {α : Type} : List (String × α) → String → α → List (String × α)
  | [], key, v => [(key, v)]
  | (k, w) :: rest, key, v =>
      if k = key then (k, v) :: rest else (k, w) :: dictSet rest key v

/-- Outcome of the single HTTPS exchange performed by the module-level
`get_ip_infos`: either `conn.request`/`conn.getresponse` raises
(`netError`), or a response arrives with a status code and a body.
`body = none` means the body is not valid JSON (`json.loads` raises);
`body = some fields` is the parsed JSON object, with fields restricted to
string-or-null values. -/
inductive HttpOutcome where
  | netError
  | response (status : Nat) (body : Option (List (String × Option String)))
deriving DecidableEq

/-- Python `ip_infos.get(key)`: `none` for an absent key or a JSON null
value. -/
def jsonGet (fields : List (String × Option String)) (key : String) : Option String :=
  match dictGet fields key with
  | none => none
  | some v => v

/-- An exception escaping the module-level `get_ip_infos`: the
`try`/`finally` block has no `except` clause, so an error raised by
`conn.request`/`conn.getresponse` or by `json.loads` propagates (after the
connection is closed). -/
inductive ResolverError where
  | connectionError
  | jsonError
deriving DecidableEq

/-- Module-level `get_ip_infos(ip_address)` from `core.py`: returns
`(None, None)` for a `None` or empty address without contacting the
network; otherwise performs one GET against ipinfo.io (outcome `net`),
reads `org` and `country` from a 200 JSON body, returns `(None, None)` for
any non-200 status, and lets request/parse errors escape. -/
def get_ip_infos (net : HttpOutcome) (ip_address : Option String) :
    Except ResolverError (Option String × Option String) :=
  match ip_address with
  | none => .ok (none, none)
  | some ip =>
    if ip.length = 0 then .ok (none, none)
    else
      match net with
      | .netError => .error .connectionError
      | .response status body =>
        if status = 200 then
          match body with
          | none => .error .jsonError
          | some fields => .ok (jsonGet fields "org", jsonGet fields "country")
        else .ok (none, none)

/-- The cache: `_cache_dict` as an insertion-ordered association list. -/
structure IpInfoCache where
  cache_dict : List (String × PyVal)
deriving DecidableEq

/-- Outcome of opening and parsing the cache file in `load_from_json`:
the file is missing (`FileNotFoundError`), is not valid JSON
(`json.JSONDecodeError`), or parses to a JSON object mapping IP strings to
two-element `[org, country]` arrays (the format `save_to_json` writes). -/
inductive LoadOutcome where
  | fileNotFound
  | jsonDecodeError
  | parsed (obj : List (String × (Option String × Option String)))
deriving DecidableEq

/-- `IpInfoCache.load_from_json`: on `FileNotFoundError` or
`json.JSONDecodeError` the mapping is reset to `{}`; otherwise it is
replaced by the parsed object, whose values are JSON arrays, i.e. Python
lists. -/
def IpInfoCache.load_from_json (_ : IpInfoCache) (o : LoadOutcome) : IpInfoCache :=
  match o with
  | .fileNotFound => ⟨[]⟩
  | .jsonDecodeError => ⟨[]⟩
  | .parsed obj => ⟨obj.map (fun p => (p.1, PyVal.list2 p.2.1 p.2.2))⟩

/-- `IpInfoCache.save_to_json`: `json.dump` serializes the mapping; both a
tuple and a list value serialize to the same two-element JSON array. -/
def IpInfoCache.save_to_json (c : IpInfoCache) :
    List (String × (Option String × Option String)) :=
  c.cache_dict.map (fun p => (p.1, p.2.contents))

/-- `IpInfoCache.get_ip_infos(ip_address)` with the resolver abstracted as
a total capability `resolve` (the spec's model of the module function). On
a hit the stored value is returned unchanged and `resolve` is not invoked;
on a miss `resolve` is invoked once and the pair is stored as a tuple.
The result also carries the updated cache and the list of IPs for which
the resolver was invoked. -/
def IpInfoCache.get_ip_infos (c : IpInfoCache)
    (resolve : String → Option String × Option String) (ip : String) :
    PyVal × IpInfoCache × List String :=
  match dictGet c.cache_dict ip with
  | some v => (v, c, [])
  | none =>
    let r := resolve ip
    (PyVal.tuple2 r.1 r.2, ⟨dictSet c.cache_dict ip (PyVal.tuple2 r.1 r.2)⟩, [ip])

/-- `IpInfoCache.get_ip_infos` composed with the real module-level resolver
(`Netmonitor.get_ip_infos`), which may raise: on a miss the exception
propagates out of the method. -/
def IpInfoCache.get_ip_infos_net (c : IpInfoCache) (net : HttpOutcome) (ip : String) :
    Except ResolverError (PyVal × IpInfoCache) :=
  match dictGet c.cache_dict ip with
  | some v => .ok (v, c)
  | none =>
    match Netmonitor.get_ip_infos net (some ip) with
    | .error e => .error e
    | .ok r => .ok (PyVal.tuple2 r.1 r.2, ⟨dictSet c.cache_dict ip (PyVal.tuple2 r.1 r.2)⟩)

/-- Worker for `pdUnique`: keeps the elements not yet seen, tracking the
seen set. -/
def pdUniqueAux : List String → List String → List String
  | [], _ => []
  | x :: xs, seen =>
      if x ∈ seen then pdUniqueAux xs seen else x :: pdUniqueAux xs (x :: seen)

/-- `pandas.Series.unique()`: the distinct elements in order of first
occurrence. -/
def pdUnique (l : List String) : List String := pdUniqueAux l []

/-- The loop in `match_ip_infos` over the unique addresses: calls
`self.get_ip_infos(ip)` for each, collecting the `(ip, org, country)` rows
of `unique_frame`, the updated cache, and the resolver calls made. -/
def resolveUniqueLoop (c : IpInfoCache)
    (resolve : String → Option String × Option String) :
    List String →
      List (String × (Option String × Option String)) × IpInfoCache × List String
  | [] => ([], c, [])
  | ip :: rest =>
    let step := c.get_ip_infos resolve ip
    let rec_ := resolveUniqueLoop step.2.1 resolve rest
    ((ip, step.1.contents) :: rec_.1, rec_.2.1, step.2.2 ++ rec_.2.2)

/-- `pd.merge(original_frame, unique_frame, on="ip", how="left")`: each row
of the left frame is joined with every matching row of the right frame, or
filled with nulls when no row matches. -/
def mergeLeft (orig : List String)
    (uniq : List (String × (Option String × Option String))) :
    List (String × (Option String × Option String)) :=
  orig.flatMap (fun ip =>
    match uniq.filter (fun r => r.1 == ip) with
    | [] => [(ip, (none, none))]
    | ms => ms.map (fun r => (ip, r.2)))

/-- The argument passed to `match_ip_infos`: a pandas Series of strings, a
plain string, or `None` (the shapes exercised by the tests). -/
inductive MatchArg where
  | series (ips : List String)
  | pyStr (s : String)
  | pyNone
deriving DecidableEq

/-- A pandas DataFrame, reduced to what the claims observe: its column
names and its rows. -/
structure MatchFrame where
  columns : List String
  rows : List (String × (Option String × Option String))
deriving DecidableEq

/-- `IpInfoCache.match_ip_infos(ip_addresses)`: rejects any non-Series
argument with `AttributeError`; returns `pd.DataFrame(columns=["org",
"country"])` for an empty Series; otherwise resolves the unique addresses
through `get_ip_infos` and left-merges back onto the original order. The
result carries the returned frame (or the message of the raised
`AttributeError`), the cache after the call (unchanged when the error is
raised, since the check precedes any mutation), and the resolver calls
made. -/
def IpInfoCache.match_ip_infos (c : IpInfoCache)
    (resolve : String → Option String × Option String) (arg : MatchArg) :
    Except String MatchFrame × IpInfoCache × List String :=
  match arg with
  | .pyStr _ => (.error "ip_addresses must be a pandas Series", c, [])
  | .pyNone => (.error "ip_addresses must be a pandas Series", c, [])
  | .series ips =>
    if ips.length = 0 then (.ok ⟨["org", "country"], []⟩, c, [])
    else
      let uniq := pdUnique ips
      let r := resolveUniqueLoop c resolve uniq
      (.ok ⟨["ip", "org", "country"], mergeLeft ips r.1⟩, r.2.1, r.2.2)

/-- `IpInfoCache.clear`: resets the mapping to `{}`. -/
def IpInfoCache.clear (_ : IpInfoCache) : IpInfoCache := ⟨[]⟩

/-- Modelled from the spec: the `copy()` method of `IpInfoCache` is called
by the repository's tests but its definition is not among the provided
sources. Per the spec it returns a new instance with an independent
mapping containing the same entries. -/
def IpInfoCache.copy (c : IpInfoCache) : IpInfoCache := ⟨c.cache_dict⟩

/-- Spec-level description of the pair `match_ip_infos` associates to one
input address: the contents of the cached value if the address was already
cached when the call started, otherwise the resolver's answer for it. -/
def specResolvedPair (cd : List (String × PyVal))
    (resolve : String → Option String × Option String) (ip : String) :
    Option String × Option String :=
  match dictGet cd ip with
  | some v => v.contents
  | none => resolve ip

/-! ### Helper lemmas about the dictionary model -/

theorem dictGet_dictSet_self {α : Type} (d : List (String × α)) (k : String) (v : α) :
    dictGet (dictSet d k v) k = some v := by
  induction d with
  | nil => simp [dictGet, dictSet]
  | cons p rest ih =>
    obtain ⟨k0, v0⟩ := p
    by_cases h : k0 = k
    · subst h
      simp [dictGet, dictSet]
    · simp [dictGet, dictSet, h, ih]

theorem dictGet_dictSet_ne {α : Type} (d : List (String × α)) (k x : String) (v : α)
    (h : x ≠ k) : dictGet (dictSet d k v) x = dictGet d x := by
  have hkx : ¬ k = x := fun hh => h hh.symm
  induction d with
  | nil => simp [dictGet, dictSet, hkx]
  | cons p rest ih =>
    obtain ⟨k0, v0⟩ := p
    by_cases h0 : k0 = k
    · subst h0
      simp [dictGet, dictSet, hkx]
    · simp [dictGet, dictSet, h0, ih]

/-! ### Helper lemmas about `pdUnique` -/

theorem pdUniqueAux_sublist (l : List String) :
    ∀ seen, (pdUniqueAux l seen).Sublist l := by
  induction l with
  | nil =>
    intro seen
    simp [pdUniqueAux]
  | cons x xs ih =>
    intro seen
    by_cases hx : x ∈ seen
    · simp only [pdUniqueAux, if_pos hx]
      exact List.Sublist.cons x (ih seen)
    · simp only [pdUniqueAux, if_neg hx]
      exact List.Sublist.cons₂ x (ih (x :: seen))

theorem pdUnique_sublist (l : List String) : (pdUnique l).Sublist l :=
  pdUniqueAux_sublist l []

theorem mem_pdUniqueAux (a : String) (l : List String) :
    ∀ seen, a ∈ pdUniqueAux l seen ↔ a ∈ l ∧ a ∉ seen := by
  induction l with
  | nil =>
    intro seen
    simp [pdUniqueAux]
  | cons x xs ih =>
    intro seen
    by_cases hx : x ∈ seen
    · simp only [pdUniqueAux, if_pos hx]
      rw [ih seen]
      constructor
      · rintro ⟨h1, h2⟩
        exact ⟨List.mem_cons_of_mem _ h1, h2⟩
      · rintro ⟨h1, h2⟩
        rcases List.mem_cons.mp h1 with h | h
        · exact absurd (h ▸ hx) h2
        · exact ⟨h, h2⟩
    · simp only [pdUniqueAux, if_neg hx]
      constructor
      · intro h
        rcases List.mem_cons.mp h with h | h
        · subst h
          exact ⟨List.mem_cons_self _ _, hx⟩
        · rcases (ih (x :: seen)).mp h with ⟨h1, h2⟩
          exact ⟨List.mem_cons_of_mem _ h1, fun hs => h2 (List.mem_cons_of_mem _ hs)⟩
      · rintro ⟨h1, h2⟩
        by_cases hax : a = x
        · subst hax
          exact List.mem_cons_self _ _
        · rcases List.mem_cons.mp h1 with h | h
          · exact absurd h hax
          · refine List.mem_cons_of_mem _ ((ih (x :: seen)).mpr ⟨h, ?_⟩)
            intro hs
            rcases List.mem_cons.mp hs with h3 | h3
            · exact hax h3
            · exact h2 h3

theorem mem_pdUnique (a : String) (l : List String) : a ∈ pdUnique l ↔ a ∈ l := by
  rw [pdUnique, mem_pdUniqueAux]
  simp

theorem pdUniqueAux_nodup (l : List String) : ∀ seen, (pdUniqueAux l seen).Nodup := by
  induction l with
  | nil =>
    intro seen
    simp [pdUniqueAux]
  | cons x xs ih =>
    intro seen
    by_cases hx : x ∈ seen
    · simp only [pdUniqueAux, if_pos hx]
      exact ih seen
    · simp only [pdUniqueAux, if_neg hx]
      refine List.nodup_cons.mpr ⟨?_, ih (x :: seen)⟩
      intro hmem
      exact ((mem_pdUniqueAux x xs (x :: seen)).mp hmem).2 (List.mem_cons_self _ _)

theorem pdUnique_nodup (l : List String) : (pdUnique l).Nodup :=
  pdUniqueAux_nodup l []

theorem filter_beq_eq_nil {a : String} {l : List String} (h : a ∉ l) :
    l.filter (fun x => x == a) = [] := by
  induction l with
  | nil => rfl
  | cons b rest ih =>
    have hba : ¬ (b == a) = true := by
      simp only [beq_iff_eq]
      intro hb
      exact h (by simp [hb])
    simp only [List.filter_cons, hba, if_neg]
    exact ih (fun hm => h (List.mem_cons_of_mem _ hm))

theorem filter_beq_singleton {a : String} {l : List String}
    (hnd : l.Nodup) (hmem : a ∈ l) : l.filter (fun x => x == a) = [a] := by
  induction l with
  | nil => simp at hmem
  | cons b rest ih =>
    rcases List.nodup_cons.mp hnd with ⟨hb, hrest⟩
    rcases List.mem_cons.mp hmem with h1 | h2
    · subst h1
      simp only [List.filter_cons, beq_self_eq_true, if_pos]
      rw [filter_beq_eq_nil hb]
    · have hba : ¬ (b == a) = true := by
        simp only [beq_iff_eq]
        intro hb2
        subst hb2
        exact hb h2
      simp only [List.filter_cons, hba, if_neg]
      exact ih hrest h2

theorem flatMap_singleton_eq_map {α β : Type} (l : List α) (g : α → List β)
    (f : α → β) (h : ∀ x ∈ l, g x = [f x]) : l.flatMap g = l.map f := by
  induction l with
  | nil => rfl
  | cons x rest ih =>
    simp only [List.flatMap_cons, List.map_cons, h x (List.mem_cons_self x rest)]
    rw [ih (fun y hy => h y (List.mem_cons_of_mem _ hy))]
    rfl

/-! ### Behaviour of `get_ip_infos` and the match loop -/

theorem get_ip_infos_preserves (c : IpInfoCache)
    (resolve : String → Option String × Option String) (ip x : String) (v : PyVal)
    (h : dictGet c.cache_dict x = some v) :
    dictGet (c.get_ip_infos resolve ip).2.1.cache_dict x = some v := by
  unfold IpInfoCache.get_ip_infos
  cases hg : dictGet c.cache_dict ip with
  | some w => simpa using h
  | none =>
    have hx : x ≠ ip := by
      intro he
      rw [he, hg] at h
      cases h
    simpa [dictGet_dictSet_ne _ _ _ _ hx] using h

theorem resolveUniqueLoop_preserves
    (resolve : String → Option String × Option String) (us : List String) :
    ∀ (c : IpInfoCache) (x : String) (v : PyVal),
      dictGet c.cache_dict x = some v →
      dictGet (resolveUniqueLoop c resolve us).2.1.cache_dict x = some v := by
  induction us with
  | nil =>
    intro c x v h
    simpa [resolveUniqueLoop] using h
  | cons ip rest ih =>
    intro c x v h
    simp only [resolveUniqueLoop]
    exact ih _ _ _ (get_ip_infos_preserves c resolve ip x v h)

theorem resolveUniqueLoop_rows_calls
    (resolve : String → Option String × Option String) (us : List String) :
    ∀ cd : List (String × PyVal), us.Nodup →
      (resolveUniqueLoop ⟨cd⟩ resolve us).1 =
        us.map (fun ip => (ip, specResolvedPair cd resolve ip)) ∧
      (resolveUniqueLoop ⟨cd⟩ resolve us).2.2 =
        us.filter (fun ip => (dictGet cd ip).isNone) := by
  induction us with
  | nil =>
    intro cd _
    simp [resolveUniqueLoop]
  | cons ip rest ih =>
    intro cd hnd
    rcases List.nodup_cons.mp hnd with ⟨hip, hrest⟩
    cases hg : dictGet cd ip with
    | some w =>
      have hstep : IpInfoCache.get_ip_infos ⟨cd⟩ resolve ip = (w, ⟨cd⟩, []) := by
        simp [IpInfoCache.get_ip_infos, hg]
      rcases ih cd hrest with ⟨hrows, hcalls⟩
      refine ⟨?_, ?_⟩
      · simp [resolveUniqueLoop, hstep, hrows, specResolvedPair, hg]
      · simp [resolveUniqueLoop, hstep, hcalls, hg]
    | none =>
      have hstep : IpInfoCache.get_ip_infos ⟨cd⟩ resolve ip =
          (PyVal.tuple2 (resolve ip).1 (resolve ip).2,
           ⟨dictSet cd ip (PyVal.tuple2 (resolve ip).1 (resolve ip).2)⟩, [ip]) := by
        simp [IpInfoCache.get_ip_infos, hg]
      have hget : ∀ y ∈ rest,
          dictGet (dictSet cd ip (PyVal.tuple2 (resolve ip).1 (resolve ip).2)) y =
            dictGet cd y := by
        intro y hy
        have hne : y ≠ ip := fun he => hip (he ▸ hy)
        exact dictGet_dictSet_ne _ _ _ _ hne
      rcases ih (dictSet cd ip (PyVal.tuple2 (resolve ip).1 (resolve ip).2)) hrest
        with ⟨hrows, hcalls⟩
      refine ⟨?_, ?_⟩
      · simp only [resolveUniqueLoop, hstep, List.map_cons]
        refine congrArg₂ _ ?_ ?_
        · simp [specResolvedPair, hg, PyVal.contents]
        · rw [hrows]
          exact List.map_congr_left (fun y hy => by
            simp [specResolvedPair, hget y hy])
      · simp only [resolveUniqueLoop, hstep, List.filter_cons, hg, Option.isNone_none,
          if_pos, List.singleton_append]
        refine congrArg _ ?_
        rw [hcalls]
        exact List.filter_congr (fun y hy => by rw [hget y hy])

theorem mergeLeft_unique_map (ips : List String)
    (f : String → Option String × Option String) :
    mergeLeft ips ((pdUnique ips).map (fun u => (u, f u))) =
      ips.map (fun ip => (ip, f ip)) := by
  apply flatMap_singleton_eq_map
  intro ip hip
  have hfil : ((pdUnique ips).map (fun u => (u, f u))).filter (fun r => r.1 == ip) =
      ((pdUnique ips).filter (fun u => u == ip)).map (fun u => (u, f u)) := by
    rw [List.filter_map]
    rfl
  have hsing : (pdUnique ips).filter (fun u => u == ip) = [ip] :=
    filter_beq_singleton (pdUnique_nodup ips) ((mem_pdUnique ip ips).mpr hip)
  simp [hfil, hsing]

/-! ### Claim theorems -/

/-- C1: for every IP string, a cache hit returns the stored value with no
resolver call and an unchanged cache; a miss invokes the resolver exactly
once for that IP, stores the returned pair (whatever it is, including
`(none, none)`) under that key, and returns it; a second call for the same
IP then returns the identical value with no further resolver call. -/
theorem get_ip_infos_cache_contract (cd : List (String × PyVal))
    (resolve : String → Option String × Option String) (ip : String) :
    (∀ v, dictGet cd ip = some v →
      IpInfoCache.get_ip_infos ⟨cd⟩ resolve ip = (v, ⟨cd⟩, [])) ∧
    (dictGet cd ip = none →
      IpInfoCache.get_ip_infos ⟨cd⟩ resolve ip =
        (PyVal.tuple2 (resolve ip).1 (resolve ip).2,
         ⟨dictSet cd ip (PyVal.tuple2 (resolve ip).1 (resolve ip).2)⟩, [ip]) ∧
      IpInfoCache.get_ip_infos
          ⟨dictSet cd ip (PyVal.tuple2 (resolve ip).1 (resolve ip).2)⟩ resolve ip =
        (PyVal.tuple2 (resolve ip).1 (resolve ip).2,
         ⟨dictSet cd ip (PyVal.tuple2 (resolve ip).1 (resolve ip).2)⟩, [])) := by
  refine ⟨?_, ?_⟩
  · intro v hv
    simp [IpInfoCache.get_ip_infos, hv]
  · intro hn
    refine ⟨?_, ?_⟩
    · simp [IpInfoCache.get_ip_infos, hn]
    · simp [IpInfoCache.get_ip_infos, dictGet_dictSet_self]

/-- Witness for C1 at a concrete input: the IP `8.8.8.8` is not cached, so
the resolver is called once, the pair is stored, and a second call hits. -/
theorem get_ip_infos_cache_contract_witness :
    dictGet [("10.0.0.5", PyVal.tuple2 none none)] "8.8.8.8" = none ∧
    IpInfoCache.get_ip_infos ⟨[("10.0.0.5", PyVal.tuple2 none none)]⟩
        (fun _ => (none, none)) "8.8.8.8" =
      (PyVal.tuple2 none none,
       ⟨[("10.0.0.5", PyVal.tuple2 none none), ("8.8.8.8", PyVal.tuple2 none none)]⟩,
       ["8.8.8.8"]) :=
  ⟨rfl,
   ((get_ip_infos_cache_contract [("10.0.0.5", PyVal.tuple2 none none)]
      (fun _ => (none, none)) "8.8.8.8").2 rfl).1⟩

/-- C2: for a non-empty series, `match_ip_infos` returns rows whose `ip`
column is exactly the input (same length, order, and duplicates), each row
carrying the pair resolved for its IP (the cached contents, or the
resolver's answer for previously unseen IPs); the resolver is invoked once
per distinct uncached value, in order of first occurrence (`pdUnique`,
which is a duplicate-free sublist of the input containing every input
element). -/
theorem match_ip_infos_order_and_dedup (cd : List (String × PyVal))
    (resolve : String → Option String × Option String) (ips : List String)
    (h : ips ≠ []) :
    (IpInfoCache.match_ip_infos ⟨cd⟩ resolve (MatchArg.series ips)).1 =
      .ok ⟨["ip", "org", "country"],
           ips.map (fun ip => (ip, specResolvedPair cd resolve ip))⟩ ∧
    (IpInfoCache.match_ip_infos ⟨cd⟩ resolve (MatchArg.series ips)).2.2 =
      (pdUnique ips).filter (fun ip => (dictGet cd ip).isNone) ∧
    (ips.map (fun ip => (ip, specResolvedPair cd resolve ip))).map (fun r => r.1)
      = ips ∧
    (pdUnique ips).Nodup ∧
    (pdUnique ips).Sublist ips ∧
    (∀ x, x ∈ pdUnique ips ↔ x ∈ ips) := by
  have hlen : ¬ ips.length = 0 := by
    simpa [List.length_eq_zero] using h
  rcases resolveUniqueLoop_rows_calls resolve (pdUnique ips) cd (pdUnique_nodup ips)
    with ⟨hrows, hcalls⟩
  refine ⟨?_, ?_, ?_, pdUnique_nodup ips, pdUnique_sublist ips,
    fun x => mem_pdUnique x ips⟩
  · simp only [IpInfoCache.match_ip_infos, if_neg hlen]
    rw [hrows, mergeLeft_unique_map]
  · simp only [IpInfoCache.match_ip_infos, if_neg hlen]
    exact hcalls
  · rw [List.map_map]
    exact List.map_id ips

/-- Witness for C2 at a concrete input: the series
`["1.1.1.1", "2.2.2.2", "1.1.1.1"]` against a cache already holding
`1.1.1.1`; one resolver call is made (for `2.2.2.2`) and the three rows
come back in input order with the duplicate preserved. -/
theorem match_ip_infos_order_and_dedup_witness :
    (["1.1.1.1", "2.2.2.2", "1.1.1.1"] : List String) ≠ [] ∧
    (IpInfoCache.match_ip_infos ⟨[("1.1.1.1", PyVal.list2 (some "OrgA") none)]⟩
        (fun _ => (some "OrgB", some "DE"))
        (MatchArg.series ["1.1.1.1", "2.2.2.2", "1.1.1.1"])).1 =
      .ok ⟨["ip", "org", "country"],
           [("1.1.1.1", (some "OrgA", none)),
            ("2.2.2.2", (some "OrgB", some "DE")),
            ("1.1.1.1", (some "OrgA", none))]⟩ ∧
    (IpInfoCache.match_ip_infos ⟨[("1.1.1.1", PyVal.list2 (some "OrgA") none)]⟩
        (fun _ => (some "OrgB", some "DE"))
        (MatchArg.series ["1.1.1.1", "2.2.2.2", "1.1.1.1"])).2.2 =
      ["2.2.2.2"] := by
  have h := match_ip_infos_order_and_dedup
    [("1.1.1.1", PyVal.list2 (some "OrgA") none)]
    (fun _ => (some "OrgB", some "DE"))
    ["1.1.1.1", "2.2.2.2", "1.1.1.1"] (by decide)
  refine ⟨by decide, ?_, ?_⟩
  · rw [h.1]
    rfl
  · rw [h.2.1]
    rfl

/-- C3 counterexample: a non-empty cache holding freshly resolved entries
(Python tuples, including one with both fields null) does not survive a
save/load round-trip unchanged: `json.load` turns every value into a list,
and Python `==` distinguishes `("a", "b")` from `["a", "b"]`. -/
theorem save_load_roundtrip_counterexample :
    ([("172.217.0.0", PyVal.tuple2 (some "AS15169 Google LLC") (some "US")),
      ("20.54.232.x", PyVal.tuple2 none none)] : List (String × PyVal)) ≠ [] ∧
    IpInfoCache.load_from_json ⟨[]⟩ (LoadOutcome.parsed (IpInfoCache.save_to_json
        ⟨[("172.217.0.0", PyVal.tuple2 (some "AS15169 Google LLC") (some "US")),
          ("20.54.232.x", PyVal.tuple2 none none)]⟩)) ≠
      ⟨[("172.217.0.0", PyVal.tuple2 (some "AS15169 Google LLC") (some "US")),
        ("20.54.232.x", PyVal.tuple2 none none)]⟩ :=
  ⟨by decide, by decide⟩

/-- C3 corrected: save followed by load on a fresh cache preserves the
keys (in order) and the `(org, country)` contents of every entry,
including null fields, but every value comes back as a JSON-derived list;
the entries equal the original as Python values only up to this
tuple-to-list conversion. -/
theorem save_load_roundtrip_amended (cd : List (String × PyVal)) (h : cd ≠ []) :
    IpInfoCache.load_from_json ⟨[]⟩
        (LoadOutcome.parsed (IpInfoCache.save_to_json ⟨cd⟩)) =
      ⟨cd.map (fun p => (p.1, PyVal.list2 p.2.contents.1 p.2.contents.2))⟩ ∧
    (IpInfoCache.load_from_json ⟨[]⟩
        (LoadOutcome.parsed (IpInfoCache.save_to_json ⟨cd⟩))).cache_dict.map
        (fun p => (p.1, p.2.contents)) =
      cd.map (fun p => (p.1, p.2.contents)) := by
  constructor
  · simp only [IpInfoCache.load_from_json, IpInfoCache.save_to_json, List.map_map]
    rfl
  · simp only [IpInfoCache.load_from_json, IpInfoCache.save_to_json, List.map_map]
    rfl

/-- Witness for the corrected C3 at a concrete input: one tuple entry with
a null country round-trips into the corresponding list entry. -/
theorem save_load_roundtrip_amended_witness :
    ([("8.8.8.8", PyVal.tuple2 (some "Google") none)] : List (String × PyVal)) ≠ [] ∧
    IpInfoCache.load_from_json ⟨[]⟩ (LoadOutcome.parsed (IpInfoCache.save_to_json
        ⟨[("8.8.8.8", PyVal.tuple2 (some "Google") none)]⟩)) =
      ⟨[("8.8.8.8", PyVal.list2 (some "Google") none)]⟩ :=
  ⟨by decide,
   (save_load_roundtrip_amended [("8.8.8.8", PyVal.tuple2 (some "Google") none)]
      (by decide)).1⟩

/-- C4 (`copy` modelled from the spec; only its tests are among the
provided sources): `copy` yields a cache with the same entries; resolving
a new IP through the copy stores the entry in the copy's mapping while the
original mapping still lacks that key, and `clear` on the original empties
the original while the copy keeps its entries. -/
theorem copy_independent (cd : List (String × PyVal))
    (resolve : String → Option String × Option String) (ip : String) :
    (IpInfoCache.copy ⟨cd⟩).cache_dict = cd ∧
    (dictGet cd ip = none →
      dictGet (IpInfoCache.get_ip_infos (IpInfoCache.copy ⟨cd⟩) resolve ip).2.1.cache_dict
          ip = some (PyVal.tuple2 (resolve ip).1 (resolve ip).2) ∧
      dictGet (⟨cd⟩ : IpInfoCache).cache_dict ip = none) ∧
    (IpInfoCache.clear ⟨cd⟩).cache_dict = [] ∧
    (cd ≠ [] →
      (IpInfoCache.copy ⟨cd⟩).cache_dict ≠ (IpInfoCache.clear ⟨cd⟩).cache_dict) := by
  refine ⟨rfl, ?_, rfl, ?_⟩
  · intro hn
    refine ⟨?_, hn⟩
    simp [IpInfoCache.copy, IpInfoCache.get_ip_infos, hn, dictGet_dictSet_self]
  · intro hne
    simpa [IpInfoCache.copy, IpInfoCache.clear] using hne

/-- Witness for C4 at a concrete input: resolving `7.7.7.7` through the
copy stores it there, while the original mapping does not contain it. -/
theorem copy_independent_witness :
    dictGet [("1.1.1.1", PyVal.tuple2 none none)] "7.7.7.7" = none ∧
    ([("1.1.1.1", PyVal.tuple2 none none)] : List (String × PyVal)) ≠ [] ∧
    dictGet (IpInfoCache.get_ip_infos
        (IpInfoCache.copy ⟨[("1.1.1.1", PyVal.tuple2 none none)]⟩)
        (fun _ => (some "O", some "C")) "7.7.7.7").2.1.cache_dict "7.7.7.7" =
      some (PyVal.tuple2 (some "O") (some "C")) ∧
    (IpInfoCache.copy ⟨[("1.1.1.1", PyVal.tuple2 none none)]⟩).cache_dict ≠
      (IpInfoCache.clear ⟨[("1.1.1.1", PyVal.tuple2 none none)]⟩).cache_dict := by
  have h := copy_independent [("1.1.1.1", PyVal.tuple2 none none)]
    (fun _ => (some "O", some "C")) "7.7.7.7"
  exact ⟨rfl, by decide, (h.2.1 rfl).1, h.2.2.2 (by decide)⟩

/-- C5 counterexample: a network error raised by
`conn.request`/`conn.getresponse` is not normalized to `(None, None)`: the
`try` block of the module-level `get_ip_infos` has no `except` clause, so
the exception propagates out of it and, for an uncached address, out of
`IpInfoCache.get_ip_infos` as well. -/
theorem resolver_error_propagates :
    Netmonitor.get_ip_infos HttpOutcome.netError (some "8.8.8.8") =
      Except.error ResolverError.connectionError ∧
    IpInfoCache.get_ip_infos_net ⟨[]⟩ HttpOutcome.netError "8.8.8.8" =
      Except.error ResolverError.connectionError :=
  ⟨rfl, rfl⟩

/-- C5 corrected: for a non-empty address, a non-200 response is
normalized to `(None, None)` and a 200 response yields the `org` and
`country` fields (each `None` when missing), with a single resolver
attempt and no retry; but an error while contacting the service, or a 200
response whose body is not valid JSON, propagates as an exception. A
`None` or empty address short-circuits to `(None, None)` with no network
contact. -/
theorem resolver_normalization_amended (ip : String) (h : ¬ ip.length = 0)
    (net : HttpOutcome) :
    (∀ status body, status ≠ 200 →
      Netmonitor.get_ip_infos (HttpOutcome.response status body) (some ip) =
        Except.ok (none, none)) ∧
    (∀ fields,
      Netmonitor.get_ip_infos (HttpOutcome.response 200 (some fields)) (some ip) =
        Except.ok (jsonGet fields "org", jsonGet fields "country")) ∧
    Netmonitor.get_ip_infos HttpOutcome.netError (some ip) =
      Except.error ResolverError.connectionError ∧
    Netmonitor.get_ip_infos (HttpOutcome.response 200 none) (some ip) =
      Except.error ResolverError.jsonError ∧
    Netmonitor.get_ip_infos net none = Except.ok (none, none) ∧
    Netmonitor.get_ip_infos net (some "") = Except.ok (none, none) := by
  refine ⟨?_, ?_, ?_, ?_, rfl, rfl⟩
  · intro status body hs
    simp [Netmonitor.get_ip_infos, h, hs]
  · intro fields
    simp [Netmonitor.get_ip_infos, h]
  · simp [Netmonitor.get_ip_infos, h]
  · simp [Netmonitor.get_ip_infos, h]

/-- Witness for the corrected C5 at a concrete input: a 404 for a
malformed address is normalized, while a connection failure propagates. -/
theorem resolver_normalization_amended_witness :
    ¬ ("20.54.232.x" : String).length = 0 ∧
    Netmonitor.get_ip_infos (HttpOutcome.response 404 none) (some "20.54.232.x") =
      Except.ok (none, none) ∧
    Netmonitor.get_ip_infos HttpOutcome.netError (some "20.54.232.x") =
      Except.error ResolverError.connectionError := by
  have h := resolver_normalization_amended "20.54.232.x" (by decide) HttpOutcome.netError
  exact ⟨by decide, h.1 404 none (by decide), h.2.2.1⟩

/-- C6: `load_from_json` resets the mapping to empty on a missing file or
invalid JSON (no exception escapes, since both are caught), and otherwise
replaces the mapping with the parsed object's contents. -/
theorem load_from_json_error_handling (c : IpInfoCache)
    (obj : List (String × (Option String × Option String))) :
    IpInfoCache.load_from_json c LoadOutcome.fileNotFound = ⟨[]⟩ ∧
    IpInfoCache.load_from_json c LoadOutcome.jsonDecodeError = ⟨[]⟩ ∧
    IpInfoCache.load_from_json c (LoadOutcome.parsed obj) =
      ⟨obj.map (fun p => (p.1, PyVal.list2 p.2.1 p.2.2))⟩ :=
  ⟨rfl, rfl, rfl⟩

/-- C7: `match_ip_infos` raises `AttributeError` for a plain-string or
`None` argument, synchronously and with the cache mapping unchanged and no
resolver call made. -/
theorem match_ip_infos_invalid_argument (cd : List (String × PyVal))
    (resolve : String → Option String × Option String) (s : String) :
    IpInfoCache.match_ip_infos ⟨cd⟩ resolve (MatchArg.pyStr s) =
      (Except.error "ip_addresses must be a pandas Series", ⟨cd⟩, []) ∧
    IpInfoCache.match_ip_infos ⟨cd⟩ resolve MatchArg.pyNone =
      (Except.error "ip_addresses must be a pandas Series", ⟨cd⟩, []) :=
  ⟨rfl, rfl⟩

/-- C8 counterexample: match on the empty series returns a frame whose
columns are `["org", "country"]`, not the `["ip", "org", "country"]` shape
of the non-empty case. -/
theorem match_empty_columns_counterexample :
    (IpInfoCache.match_ip_infos ⟨[]⟩ (fun _ => (none, none)) (MatchArg.series [])).1 =
      Except.ok ⟨["org", "country"], []⟩ ∧
    (["org", "country"] : List String) ≠ ["ip", "org", "country"] :=
  ⟨rfl, by decide⟩

/-- C8 corrected: match on the empty series returns an empty frame with
zero resolver calls and an unchanged cache, but its column shape is
`["org", "country"]`: it lacks the `ip` column that the non-empty result
carries. -/
theorem match_empty_behavior (cd : List (String × PyVal))
    (resolve : String → Option String × Option String) :
    IpInfoCache.match_ip_infos ⟨cd⟩ resolve (MatchArg.series []) =
      (Except.ok ⟨["org", "country"], []⟩, ⟨cd⟩, []) :=
  rfl

/-- C9: an entry, once stored, is left exactly as stored by every
subsequent `get_ip_infos` or `match_ip_infos` call, whatever their
arguments; only `clear` or a wholesale `load_from_json` replacement
removes or changes entries. -/
theorem cache_entry_stable (cd : List (String × PyVal))
    (resolve : String → Option String × Option String) (ip : String) (v : PyVal)
    (h : dictGet cd ip = some v) :
    (∀ ip2,
      dictGet (IpInfoCache.get_ip_infos ⟨cd⟩ resolve ip2).2.1.cache_dict ip = some v) ∧
    (∀ arg,
      dictGet (IpInfoCache.match_ip_infos ⟨cd⟩ resolve arg).2.1.cache_dict ip = some v) := by
  refine ⟨fun ip2 => get_ip_infos_preserves ⟨cd⟩ resolve ip2 ip v h, ?_⟩
  intro arg
  cases arg with
  | pyStr s => simpa [IpInfoCache.match_ip_infos] using h
  | pyNone => simpa [IpInfoCache.match_ip_infos] using h
  | series ips =>
    by_cases hlen : ips.length = 0
    · simpa [IpInfoCache.match_ip_infos, hlen] using h
    · simp only [IpInfoCache.match_ip_infos, if_neg hlen]
      exact resolveUniqueLoop_preserves resolve (pdUnique ips) ⟨cd⟩ ip v h

/-- Witness for C9 at a concrete input: the stored entry for `1.1.1.1`
survives a `match_ip_infos` call that resolves a different address. -/
theorem cache_entry_stable_witness :
    dictGet [("1.1.1.1", PyVal.tuple2 (some "A") (some "AU"))] "1.1.1.1" =
      some (PyVal.tuple2 (some "A") (some "AU")) ∧
    dictGet (IpInfoCache.match_ip_infos
        ⟨[("1.1.1.1", PyVal.tuple2 (some "A") (some "AU"))]⟩
        (fun _ => (none, none)) (MatchArg.series ["2.2.2.2"])).2.1.cache_dict "1.1.1.1" =
      some (PyVal.tuple2 (some "A") (some "AU")) :=
  ⟨rfl,
   (cache_entry_stable [("1.1.1.1", PyVal.tuple2 (some "A") (some "AU"))]
      (fun _ => (none, none)) "1.1.1.1" (PyVal.tuple2 (some "A") (some "AU")) rfl).2
     (MatchArg.series ["2.2.2.2"])⟩

theorem dictGet_load_parsed (obj : List (String × (Option String × Option String)))
    (key : String) :
    dictGet (obj.map (fun p => (p.1, PyVal.list2 p.2.1 p.2.2))) key =
      (dictGet obj key).map (fun q => PyVal.list2 q.1 q.2) := by
  induction obj with
  | nil => rfl
  | cons p rest ih =>
    by_cases h : p.1 = key
    · simp [dictGet, h]
    · simp [dictGet, h, ih]

/-- C10: a cache miss stores the freshly resolved pair as a Python tuple,
while `load_from_json` stores JSON-derived lists; for a key restored from
a file, `get_ip_infos` therefore returns the stored two-element list, a
value Python `==` distinguishes from the tuple with the same contents. -/
theorem stored_value_types (cd : List (String × PyVal))
    (obj : List (String × (Option String × Option String)))
    (resolve : String → Option String × Option String) (ip : String)
    (o c : Option String) :
    (dictGet cd ip = none →
      dictGet (IpInfoCache.get_ip_infos ⟨cd⟩ resolve ip).2.1.cache_dict ip =
        some (PyVal.tuple2 (resolve ip).1 (resolve ip).2)) ∧
    (dictGet obj ip = some (o, c) →
      (IpInfoCache.get_ip_infos
          (IpInfoCache.load_from_json ⟨[]⟩ (LoadOutcome.parsed obj)) resolve ip).1 =
        PyVal.list2 o c) ∧
    PyVal.tuple2 o c ≠ PyVal.list2 o c := by
  refine ⟨?_, ?_, fun he => PyVal.noConfusion he⟩
  · intro hn
    simp [IpInfoCache.get_ip_infos, hn, dictGet_dictSet_self]
  · intro hs
    have hload : dictGet (obj.map (fun p => (p.1, PyVal.list2 p.2.1 p.2.2))) ip =
        some (PyVal.list2 o c) := by
      rw [dictGet_load_parsed, hs]
      rfl
    simp [IpInfoCache.get_ip_infos, IpInfoCache.load_from_json, hload]

/-- Witness for C10 at a concrete input: the entry for `9.9.9.9` restored
from a file comes back from `get_ip_infos` as a list value. -/
theorem stored_value_types_witness :
    dictGet [("9.9.9.9", ((some "Quad9" : Option String), (some "CH" : Option String)))]
        "9.9.9.9" = some (some "Quad9", some "CH") ∧
    (IpInfoCache.get_ip_infos (IpInfoCache.load_from_json ⟨[]⟩
        (LoadOutcome.parsed [("9.9.9.9", (some "Quad9", some "CH"))]))
        (fun _ => (none, none)) "9.9.9.9").1 =
      PyVal.list2 (some "Quad9") (some "CH") :=
  ⟨rfl,
   (stored_value_types [] [("9.9.9.9", (some "Quad9", some "CH"))]
      (fun _ => (none, none)) "9.9.9.9" (some "Quad9") (some "CH")).2.1 rfl⟩

end Netmonitor
